import Mathlib

/-!
Verification of the CrisprLib gRNA design core (`grna_designer.py`, `utils.py`,
`crisprlib.py`) against its natural-language specification.

DNA sequences are modelled as `List Char`.  Python string slicing `s[a:b]`
(with `0 ≤ a ≤ b`) is `(s.drop a).take (b - a)`.  Python `while` loops are
modelled as fuel-based recursion; the fuel supplied by the top-level entry
points (`gene.length + 2`) strictly exceeds the number of loop iterations,
since the loop index increases by at least one per iteration and the loop
exits once the index passes the sequence length.  Operations that can raise
a Python exception (`KeyError` on an unknown dict key or a non-ACGT base)
return `Option`.
-/

/-- The DNA alphabet accepted by the complement table in `utils.py`. -/
def dnaChars : List Char := ['A', 'C', 'G', 'T']

/-- `DNATools.complement_dict` from `utils.py`: dict lookup; `none` models the
`KeyError` raised on any other character. -/
def complement_dict (c : Char) : Option Char :=
  if c = 'A' then some 'T'
  else if c = 'T' then some 'A'
  else if c = 'C' then some 'G'
  else if c = 'G' then some 'C'
  else none

/-- `reverse_complement` (`DNATools.reverse_complement` body from `utils.py`):
reverse the sequence, then complement each base; fails on a non-ACGT base. -/
def reverse_complement (s : List Char) : Option (List Char) :=
  s.reverse.mapM complement_dict

/-- Total complement function used only to state specifications (identity on
non-ACGT characters, which never occur in valid DNA). -/
def complementT (c : Char) : Char :=
  if c = 'A' then 'T'
  else if c = 'T' then 'A'
  else if c = 'C' then 'G'
  else if c = 'G' then 'C'
  else c

/-- Total reverse complement, for stating specifications. -/
def rcT (s : List Char) : List Char :=
  s.reverse.map complementT

/-- Python string slicing `s[a:b]` for `0 ≤ a ≤ b` (as used throughout the source). -/
def pySlice (s : List Char) (a b : Nat) : List Char :=
  (s.drop a).take (b - a)

/-- One record of the `SYSTEM_TO_CAS` table in `grna_designer.py`.  The
Cas13 entries lack the `pam`, `n_length` and `pam_length` keys, so those
fields are `Option` (dict access on a missing key raises `KeyError`). -/
structure CasRecord where
  pam : Option (List (List Char))
  n_length : Option Nat
  pam_length : Option Nat
  spacer_length : Nat
  scaffold : List Char
deriving DecidableEq

/-- The `SpCas9` dict from `grna_designer.py`. -/
def SpCas9 : CasRecord :=
  { pam := some ["GG".toList]
    n_length := some 1
    pam_length := some 2
    spacer_length := 20
    scaffold := "GTTTTAGAGCTAGAAATAGCAAGTTAAAATAAGGCTAGTCCGTTATCAACTTGAAAAAGTGGCACCGAGTCGGTGCTTTTTTT".toList }

/-- The `SaCas9` dict from `grna_designer.py`. -/
def SaCas9 : CasRecord :=
  { pam := some ["GAA".toList, "GAG".toList, "GGA".toList, "GGG".toList]
    n_length := some 2
    pam_length := some 3
    spacer_length := 22
    scaffold := "GTTTTAGAGCTAGAAATAGCAAGTTAAAATAAGGCTAGTCCGTTATCAACTTGAAAAAGTGGCACCGAGTCGGTGCTTTT".toList }

/-- The `FnCas12a` dict from `grna_designer.py` (note `pam_length` is 3
while the single motif `TT` has length 2). -/
def FnCas12a : CasRecord :=
  { pam := some ["TT".toList]
    n_length := some 1
    pam_length := some 3
    spacer_length := 18
    scaffold := "AATTTCTACTGTTGTAGAT".toList }

/-- The `LbCas12a` dict from `grna_designer.py`. -/
def LbCas12a : CasRecord :=
  { pam := some ["TTTA".toList, "TTTC".toList, "TTTG".toList]
    n_length := some 0
    pam_length := some 4
    spacer_length := 23
    scaffold := "TAATTTCTACTAAGTGTAGAT".toList }

/-- The `LshCas13a` dict from `grna_designer.py`. -/
def LshCas13a : CasRecord :=
  { pam := none
    n_length := none
    pam_length := none
    spacer_length := 24
    scaffold := "GTTTTAGAGCTAGAAATAGCAAGTTAAAATAAGGCTAGTCCGTTATCAACTTGAAAAAGTGGCACCGAGTCGGTG".toList }

/-- The `LwCas13a` dict from `grna_designer.py`. -/
def LwCas13a : CasRecord :=
  { pam := none
    n_length := none
    pam_length := none
    spacer_length := 28
    scaffold := "GGGGATTTAGACTACCCCAAAAACGAAGGGGACTAAAAC".toList }

/-- The `SYSTEM_TO_CAS` dict from `grna_designer.py`; `none` models the
`KeyError` on an unknown system identifier. -/
def SYSTEM_TO_CAS (system : String) : Option CasRecord :=
  if system = "1" then some SpCas9
  else if system = "2" then some SaCas9
  else if system = "3" then some FnCas12a
  else if system = "4" then some LbCas12a
  else if system = "5" then some LshCas13a
  else if system = "6" then some LwCas13a
  else none

/-- Candidate search of one iteration of the Cas9 branch of
`generate_gRNA_from_seq`: try the forward PAM with an upstream spacer, else
the reverse-complement PAM with a downstream spacer.  Returns the spacer
text, the recorded `current_start` bookkeeping value, and (for stating
start-position properties) the offset at which the spacer text is actually
sliced from the gene; for this branch the two coincide. -/
def cas9Find (gene : List Char) (pams rcpams : List (List Char)) (n pl sl : Nat)
    (i : Nat) : Option (List Char × Int × Int) :=
  let pp := pySlice gene i (i + pl)
  if sl + n ≤ i ∧ pp ∈ pams then
    some (pySlice gene (i - n - sl) (i - n), ((i : Int) - n - sl, (i : Int) - n - sl))
  else if i + sl + n + pl ≤ gene.length ∧ pp ∈ rcpams then
    some (pySlice gene (i + pl + n) (i + pl + n + sl), ((i : Int) + pl + n, (i : Int) + pl + n))
  else none

/-- Candidate search of one iteration of the Cas12a branch of
`generate_gRNA_from_seq`: forward PAM with downstream spacer, else
reverse-complement PAM with upstream spacer.  The recorded `current_start`
(second component) is the literal bookkeeping value of the source, which
differs from the offset at which the spacer is sliced (third component). -/
def cas12aFind (gene : List Char) (pams rcpams : List (List Char)) (n pl sl : Nat)
    (i : Nat) : Option (List Char × Int × Int) :=
  let pp := pySlice gene i (i + pl)
  if i + sl + n + pl ≤ gene.length ∧ pp ∈ pams then
    some (pySlice gene (i + pl + n) (i + pl + n + sl), ((i : Int) - n - sl, (i : Int) + pl + n))
  else if sl + n ≤ i ∧ pp ∈ rcpams then
    some (pySlice gene (i - n - sl) (i - n), ((i : Int) + pl + n, (i : Int) - n - sl))
  else none

/-- The scanning `while` loop shared by the two PAM branches of
`generate_gRNA_from_seq`.  The loop condition `i < len(gene) - pam_length`
(over Python ints) is written `i + pl < gene.length`.  `sp = []` models the
falsiness of an empty spacer string in `if not spacer`; rejection requires
`current_start - prev_start <= spacer_length` over Python ints, so the
bookkeeping values are `Int`.  On acceptance the index advances by
`1 + spacer_length` exactly as in the source (`i += 1` before the check,
then `i += spacer_length`). -/
def scanLoop (gene : List Char) (pl sl num : Nat) (assemble : List Char → List Char)
    (find : Nat → Option (List Char × Int × Int)) :
    Nat → Nat → Int → List (List Char × Int × Int) → List (List Char × Int × Int)
  | 0, _, _, grnas => grnas
  | fuel + 1, i, prev, grnas =>
    if i + pl < gene.length then
      if grnas.length = num then grnas
      else
        match find i with
        | none => scanLoop gene pl sl num assemble find fuel (i + 1) prev grnas
        | some (sp, cur, ext) =>
          if sp = [] ∨ cur - prev ≤ (sl : Int) then
            scanLoop gene pl sl num assemble find fuel (i + 1) prev grnas
          else
            scanLoop gene pl sl num assemble find fuel (i + 1 + sl) cur
              (grnas ++ [(assemble sp, cur, ext)])
    else grnas

/-- The PAM branch of `generate_gRNA_from_seq`, instrumented to return each
accepted guide together with its recorded `current_start` and the offset of
the extracted spacer window.  The reverse-complemented PAM list
`[reverse_complement(pam) for pam in pams]` is hoisted out of the loop (it
is a pure expression recomputed identically each iteration). -/
def scan_gRNAs (gene : List Char) (system : String) (num : Nat) :
    Option (List (List Char × Int × Int)) := do
  let cas ← SYSTEM_TO_CAS system
  let pams ← cas.pam
  let n ← cas.n_length
  let pl ← cas.pam_length
  let sl := cas.spacer_length
  let scaffold := cas.scaffold
  let rcpams ← pams.mapM reverse_complement
  if system = "1" ∨ system = "2" then
    pure (scanLoop gene pl sl num (fun sp => sp ++ scaffold)
      (cas9Find gene pams rcpams n pl sl) (gene.length + 2) 0 0 [])
  else
    pure (scanLoop gene pl sl num (fun sp => scaffold ++ sp ++ "TTTTTT".toList)
      (cas12aFind gene pams rcpams n pl sl) (gene.length + 2) 0 0 [])

/-- Weight of one hydrogen-bonded base in `DNATools._count_hbonds`
(`utils.py`): G/C contribute 3, A/T contribute 2 (two independent `if`s). -/
def hbondWeight (c : Char) : Nat :=
  (if c = 'C' ∨ c = 'G' then 3 else 0) + (if c = 'A' ∨ c = 'T' then 2 else 0)

/-- The `for dist_from_end in range(6)` loop of `_count_hbonds`: on a match
at offset `d` the variable `match_length` is assigned `d` (not `d + 1`);
on the first mismatch the loop breaks. -/
def matchLoop (eqb : Nat → Bool) : Nat → Nat → Nat → Nat
  | 0, _, ml => ml
  | fuel + 1, d, ml => if eqb d then matchLoop eqb fuel (d + 1) d else ml

/-- The per-offset base comparison of `_count_hbonds`:
`charSeq[suffix_start + d] == revC[len_seq - 1 - start_inc - 5 + d]`.
All indices are in range whenever `hairpin_counter` calls this. -/
def hairpinEqb (charSeq revC : List Char) (start_inc suffix_start len_seq : Nat)
    (d : Nat) : Bool :=
  charSeq.getD (suffix_start + d) '!' == revC.getD (len_seq - 1 - start_inc - 5 + d) '?'

/-- `DNATools._count_hbonds` from `utils.py`. -/
def count_hbonds (charSeq : List Char) (start_inc end_excl : Nat) (revC : List Char)
    (len_seq : Nat) : Nat :=
  let suffix_start := end_excl - 6
  let match_length := matchLoop (hairpinEqb charSeq revC start_inc suffix_start len_seq) 6 0 0
  if match_length < 2 then 0
  else ((List.range match_length).map
    (fun j => hbondWeight (revC.getD (len_seq - 1 - start_inc - 5 + j) '?'))).sum

/-- The double loop of `DNATools.hairpin_counter`: spacer lengths 4..9, and
start positions `i in range(len_seq - spaces - 12)`; each probe contributes
`2 ** hbonds - 1` (an integer; the Python float accumulator is exact on
these values). -/
def hairpin_core (charSeq revC : List Char) (len_seq : Nat) : Nat :=
  ((List.range' 4 6).map (fun spaces =>
    ((List.range (len_seq - spaces - 12)).map (fun i =>
      2 ^ count_hbonds charSeq i (i + spaces + 12) revC len_seq - 1)).sum)).sum

/-- `hairpin_counter` (`DNATools.hairpin_counter` from `utils.py`): the
constructor uppercases the sequence, then the reverse complement is taken
(failing on a non-ACGT base) and the double probing loop is run. -/
def hairpin_counter (w : List Char) : Option Nat :=
  let seq := w.map Char.toUpper
  (reverse_complement seq).map (fun rcSeq => hairpin_core seq rcSeq seq.length)

/-- The sort comparator of `generate_PAMless_gRNA`: Python's
`sorted(spacers, key=lambda x: x[1])` compares the hairpin scores. -/
def pamlessKey (a b : List Char × Nat) : Bool :=
  decide (a.2 ≤ b.2)

/-- `generate_PAMless_gRNA` from `grna_designer.py`: score every window of
length `spacer_length` with `hairpin_counter`, stable-sort by score (Python
`sorted` is a stable sort, modelled by `List.mergeSort`), truncate to `num`,
reverse-complement each selected window and prepend the scaffold.  The
Python window count `range(len(gene) - spacer_length + 1)` over ints equals
`List.range (gene.length + 1 - spacer_length)` over `Nat` (both are empty
when the gene is shorter than a window). -/
def generate_PAMless_gRNA (gene : List Char) (system : String) (num : Nat) :
    Option (List (List Char)) := do
  let cas ← SYSTEM_TO_CAS system
  let sl := cas.spacer_length
  let scaffold := cas.scaffold
  let spacers ← (List.range (gene.length + 1 - sl)).mapM (fun i => do
    let window := pySlice gene i (i + sl)
    let g ← hairpin_counter window
    pure (window, g))
  let sorted := (spacers.mergeSort pamlessKey).take num
  let rcs ← sorted.mapM (fun sp => reverse_complement sp.1)
  pure (rcs.map (fun sp => scaffold ++ sp))

/-- `generate_gRNA_from_seq` from `grna_designer.py`: dispatch Cas13
systems to `generate_PAMless_gRNA`, otherwise run the PAM scan and return
the assembled guides. -/
def generate_gRNA_from_seq (gene : List Char) (system : String) (num : Nat) :
    Option (List (List Char)) :=
  if system = "5" ∨ system = "6" then generate_PAMless_gRNA gene system num
  else (scan_gRNAs gene system num).map (List.map Prod.fst)

/-- Guide assembly of `tiled_gRNAs_from_seq`: spacer-then-scaffold for the
Cas9 systems, scaffold-spacer-terminator otherwise. -/
def tileAssemble (system : String) (cas : CasRecord) (w : List Char) : List Char :=
  if system = "1" ∨ system = "2" then w ++ cas.scaffold
  else cas.scaffold ++ w ++ "TTTTTT".toList

/-- The `while i <= len(gene) - spacer_length` loop of
`tiled_gRNAs_from_seq`; the condition over Python ints is written
`i + sl ≤ gene.length`. -/
def tiledLoop (gene : List Char) (sl : Nat) (assemble : List Char → List Char) (p : Nat) :
    Nat → Nat → List (List Char) → List (List Char)
  | 0, _, acc => acc
  | fuel + 1, i, acc =>
    if i + sl ≤ gene.length then
      tiledLoop gene sl assemble p fuel (i + p) (acc ++ [assemble (pySlice gene i (i + sl))])
    else acc

/-- `tiled_gRNAs_from_seq` from `grna_designer.py`. -/
def tiled_gRNAs_from_seq (gene : List Char) (system : String) (spacing : Nat) :
    Option (List (List Char)) := do
  let cas ← SYSTEM_TO_CAS system
  pure (tiledLoop gene cas.spacer_length (tileAssemble system cas) spacing
    (gene.length + 2) 0 [])

/-- `FWD_TAIL` from `utils.py`. -/
def FWD_TAIL : List Char := "CCATAACTAGT".toList

/-- `REV_TAIL` from `utils.py`. -/
def REV_TAIL : List Char := "CTCAGGAATTC".toList

/-- `DNATools.generate_primers` from `utils.py`: the constructor uppercases
the sequence; the method returns
`(FWD_TAIL + seq[:15], REV_TAIL + reverse_complement(seq)[:15])`, failing
only if the reverse complement hits a non-ACGT base.  There is no length
check anywhere in this code path. -/
def generate_primers (s : List Char) : Option (List Char × List Char) :=
  let seq := s.map Char.toUpper
  (reverse_complement seq).map (fun r => (FWD_TAIL ++ seq.take 15, REV_TAIL ++ r.take 15))

/-- The interior slice `guide[15:-14]` used by the PCR-product assembly in
`crisprlib.py`; over `Nat`, `(take (len - 14)).drop 15` matches Python's
clamping semantics for every guide length. -/
def pcr_interior (guide : List Char) : List Char :=
  (guide.take (guide.length - 14)).drop 15

/-- The amplicon `fwd + guide[15:-14] + rev` built per guide in the main
loop of `crisprlib.py` (the `pcr_products` entries). -/
def pcr_product (guide : List Char) : Option (List Char) :=
  (generate_primers guide).map (fun pr => pr.1 ++ pcr_interior guide ++ pr.2)

/-! ### Generic helper lemmas -/

theorem mapM_eq_some_map (f : α → Option β) (g : α → β) :
    ∀ l : List α, (∀ x ∈ l, f x = some (g x)) → l.mapM f = some (l.map g) := by
  intro l
  induction l with
  | nil => intro _; rfl
  | cons a l ih =>
    intro h
    rw [List.mapM_cons, h a (by simp), ih (fun x hx => h x (by simp [hx]))]
    rfl

theorem map_toUpper_valid {s : List Char} (h : ∀ c ∈ s, c ∈ dnaChars) :
    s.map Char.toUpper = s := by
  have : ∀ c ∈ s, Char.toUpper c = id c := by
    intro c hc
    have := h c hc
    simp only [dnaChars, List.mem_cons, List.mem_singleton, List.not_mem_nil, or_false] at this
    rcases this with h | h | h | h <;> subst h <;> decide
  rw [List.map_congr_left this, List.map_id]

theorem rc_valid {s : List Char} (h : ∀ c ∈ s, c ∈ dnaChars) :
    reverse_complement s = some (rcT s) := by
  apply mapM_eq_some_map
  intro c hc
  have := h c (List.mem_reverse.mp hc)
  simp only [dnaChars, List.mem_cons, List.mem_singleton, List.not_mem_nil, or_false] at this
  rcases this with h | h | h | h <;> subst h <;> decide

theorem length_pySlice (s : List Char) (a b : Nat) :
    (pySlice s a b).length = min (b - a) (s.length - a) := by
  simp [pySlice]

theorem pySlice_pair (s : List Char) (a : Nat) (d : Char) (h : a + 2 ≤ s.length) :
    pySlice s a (a + 2) = [s.getD a d, s.getD (a + 1) d] := by
  have h1 : a < s.length := by omega
  have h2 : a + 1 < s.length := by omega
  simp only [pySlice, Nat.add_sub_cancel_left]
  rw [List.drop_eq_getElem_cons h1, List.drop_eq_getElem_cons h2]
  simp only [List.take_succ_cons, List.take_zero]
  rw [List.getD_eq_getElem?_getD, List.getD_eq_getElem?_getD,
    List.getElem?_eq_getElem h1, List.getElem?_eq_getElem h2]
  rfl

theorem mem_pySlice {c : Char} {s : List Char} {a b : Nat} (h : c ∈ pySlice s a b) :
    c ∈ s :=
  List.mem_of_mem_drop (List.mem_of_mem_take h)

/-! ### C2: the nuclease catalog -/

/-- The spec's catalog invariant: when PAM motifs are present, `pamLength`
equals the length of each motif, all motifs are over {A,C,G,T}, and
`spacerLength` is positive. -/
def catalogInvariant (c : CasRecord) : Prop :=
  (∀ m ∈ c.pam.getD [], c.pam_length = some m.length ∧ ∀ ch ∈ m, ch ∈ dnaChars) ∧
    0 < c.spacer_length

instance (c : CasRecord) : Decidable (catalogInvariant c) := by
  unfold catalogInvariant; infer_instance

/-- C2.  The catalog lookup for system `'3'` returns the `FnCas12a` record,
whose motif list, spacer offset (`n_length`), spacer length and downstream
orientation match the spec table, but whose `pam_length` is `3`, not the
`2` required by the table and by the invariant `pamLength = length of each
PAM motif` (the single motif `TT` has length 2).  Every other record of the
catalog satisfies the invariant; `FnCas12a` is the unique exception. -/
theorem c2_catalog_fncas12a_bug :
    SYSTEM_TO_CAS "3" = some FnCas12a ∧
    FnCas12a.pam = some ["TT".toList] ∧
    FnCas12a.n_length = some 1 ∧
    FnCas12a.spacer_length = 18 ∧
    FnCas12a.pam_length = some 3 ∧
    "TT".toList.length = 2 ∧
    ¬ catalogInvariant FnCas12a ∧
    catalogInvariant SpCas9 ∧
    catalogInvariant SaCas9 ∧
    catalogInvariant LbCas12a ∧
    catalogInvariant LshCas13a ∧
    catalogInvariant LwCas13a := by
  refine ⟨rfl, rfl, rfl, rfl, rfl, rfl, ?_, ?_, ?_, ?_, ?_, ?_⟩ <;> decide

/-! ### C3: the FnCas12a scanner can never match -/

theorem fn_find_none (gene : List Char) (j : Nat) (h : j + 3 < gene.length) :
    cas12aFind gene ["TT".toList] ["AA".toList] 1 3 18 j = none := by
  have hlen : (pySlice gene j (j + 3)).length = 3 := by
    rw [length_pySlice]; omega
  have h1 : ¬ pySlice gene j (j + 3) ∈ ["TT".toList] := by
    intro hm
    rw [List.mem_singleton] at hm
    rw [hm] at hlen
    simp at hlen
  have h2 : ¬ pySlice gene j (j + 3) ∈ ["AA".toList] := by
    intro hm
    rw [List.mem_singleton] at hm
    rw [hm] at hlen
    simp at hlen
  simp only [cas12aFind]
  rw [if_neg (by tauto), if_neg (by tauto)]

theorem fn_scanLoop_empty (gene : List Char) (num : Nat) (asm : List Char → List Char) :
    ∀ fuel j prev,
      scanLoop gene 3 18 num asm (cas12aFind gene ["TT".toList] ["AA".toList] 1 3 18)
        fuel j prev [] = [] := by
  intro fuel
  induction fuel with
  | zero => intro j prev; rfl
  | succ fuel ih =>
    intro j prev
    rw [scanLoop]
    by_cases h : j + 3 < gene.length
    · rw [if_pos h]
      by_cases hn : ([] : List (List Char × Int × Int)).length = num
      · rw [if_pos hn]
      · rw [if_neg hn, fn_find_none gene j h]
        exact ih (j + 1) prev
    · rw [if_neg h]

/-- C3.  For every input sequence and every requested count, the knockout
scan for FnCas12a (system `'3'`) returns the empty guide list: the scanner
reads PAM windows of `pam_length = 3` characters, but the motif list holds
only the 2-character `TT` (reverse complement `AA`), so neither membership
test can ever succeed. -/
theorem c3_fncas12a_scan_empty (gene : List Char) (num : Nat) :
    generate_gRNA_from_seq gene "3" num = some [] := by
  have h0 : generate_gRNA_from_seq gene "3" num =
      some ((scanLoop gene 3 18 num
        (fun sp => FnCas12a.scaffold ++ sp ++ "TTTTTT".toList)
        (cas12aFind gene ["TT".toList] ["AA".toList] 1 3 18)
        (gene.length + 2) 0 0 []).map Prod.fst) := rfl
  rw [h0, fn_scanLoop_empty]
  rfl

/-! ### C5 and C6: primer synthesis -/

theorem pcr_interior_eq_pySlice {g : List Char} (h : 29 ≤ g.length) :
    pcr_interior g = pySlice g 15 (g.length - 14) := by
  have harith : 15 + (g.length - 14 - 15) = g.length - 14 := by omega
  rw [pcr_interior, pySlice, List.take_drop, harith]

/-- C5 counterexample.  The primer-synthesis stage does not fail on a guide
of length 28 < 29: it happily returns a primer pair and an amplicon (with
an empty interior), contradicting the claimed `SequenceTooShort` failure. -/
theorem c5_short_guide_counterexample :
    generate_primers (List.replicate 28 'A') =
      some (FWD_TAIL ++ List.replicate 15 'A', REV_TAIL ++ List.replicate 15 'T') ∧
    pcr_interior (List.replicate 28 'A') = [] ∧
    pcr_product (List.replicate 28 'A') =
      some (FWD_TAIL ++ List.replicate 15 'A' ++ (REV_TAIL ++ List.replicate 15 'T')) ∧
    generate_primers (List.replicate 28 'A') ≠ none := by
  refine ⟨?_, ?_, ?_, ?_⟩ <;> decide

/-- C5 (amended).  The primer-synthesis stage performs no length check at
all: for every valid-DNA guide of any length it succeeds, returning the
fixed-tail primer pair and the amplicon; for guides shorter than 30 nt the
amplicon interior `guide[15:-14]` is empty.  No `SequenceTooShort` failure
exists in this code path. -/
theorem c5_no_length_check_amended (g : List Char) (hv : ∀ c ∈ g, c ∈ dnaChars) :
    generate_primers g = some (FWD_TAIL ++ g.take 15, REV_TAIL ++ (rcT g).take 15) ∧
    pcr_product g =
      some ((FWD_TAIL ++ g.take 15) ++ pcr_interior g ++ (REV_TAIL ++ (rcT g).take 15)) ∧
    (g.length < 30 → pcr_interior g = []) := by
  have hu := map_toUpper_valid hv
  refine ⟨?_, ?_, ?_⟩
  · rw [generate_primers]
    simp only [hu, rc_valid hv]
    rfl
  · rw [pcr_product, generate_primers]
    simp only [hu, rc_valid hv]
    rfl
  · intro hlen
    apply List.drop_eq_nil_of_le
    rw [List.length_take]
    omega

theorem c5_no_length_check_witness :
    (∀ c ∈ "ACGTAC".toList, c ∈ dnaChars) ∧
    (generate_primers "ACGTAC".toList =
        some (FWD_TAIL ++ "ACGTAC".toList.take 15, REV_TAIL ++ (rcT "ACGTAC".toList).take 15) ∧
      pcr_product "ACGTAC".toList =
        some ((FWD_TAIL ++ "ACGTAC".toList.take 15) ++ pcr_interior "ACGTAC".toList ++
          (REV_TAIL ++ (rcT "ACGTAC".toList).take 15)) ∧
      ("ACGTAC".toList.length < 30 → pcr_interior "ACGTAC".toList = [])) :=
  ⟨by decide, c5_no_length_check_amended ("ACGTAC".toList) (by decide)⟩

/-- C6.  For every valid-DNA guide of length at least 29, the primer
synthesizer returns `forwardPrimer = FWD_TAIL + guide[0:15]`,
`reversePrimer = REV_TAIL + reverseComplement(guide)[0:15]`, and the
amplicon is `forwardPrimer + guide[15:len-14] + reversePrimer`. -/
theorem c6_primer_formulas (g : List Char) (hlen : 29 ≤ g.length)
    (hv : ∀ c ∈ g, c ∈ dnaChars) :
    generate_primers g = some (FWD_TAIL ++ g.take 15, REV_TAIL ++ (rcT g).take 15) ∧
    pcr_product g =
      some ((FWD_TAIL ++ g.take 15) ++ pySlice g 15 (g.length - 14) ++
        (REV_TAIL ++ (rcT g).take 15)) := by
  have hu := map_toUpper_valid hv
  refine ⟨?_, ?_⟩
  · rw [generate_primers]
    simp only [hu, rc_valid hv]
    rfl
  · rw [pcr_product, generate_primers, ← pcr_interior_eq_pySlice hlen]
    simp only [hu, rc_valid hv]
    rfl

theorem c6_primer_formulas_witness :
    (29 ≤ (List.replicate 15 'A' ++ List.replicate 15 'T').length ∧
      ∀ c ∈ List.replicate 15 'A' ++ List.replicate 15 'T', c ∈ dnaChars) ∧
    (generate_primers (List.replicate 15 'A' ++ List.replicate 15 'T') =
        some (FWD_TAIL ++ (List.replicate 15 'A' ++ List.replicate 15 'T').take 15,
          REV_TAIL ++ (rcT (List.replicate 15 'A' ++ List.replicate 15 'T')).take 15) ∧
      pcr_product (List.replicate 15 'A' ++ List.replicate 15 'T') =
        some ((FWD_TAIL ++ (List.replicate 15 'A' ++ List.replicate 15 'T').take 15) ++
          pySlice (List.replicate 15 'A' ++ List.replicate 15 'T') 15
            ((List.replicate 15 'A' ++ List.replicate 15 'T').length - 14) ++
          (REV_TAIL ++ (rcT (List.replicate 15 'A' ++ List.replicate 15 'T')).take 15))) :=
  ⟨⟨by decide, by decide⟩,
    c6_primer_formulas (List.replicate 15 'A' ++ List.replicate 15 'T') (by decide) (by decide)⟩

/-! ### C9: the tiling generator -/

theorem range_div_succ_map {α : Type} (f : Nat → α) (n p : Nat) (hp : 0 < p)
    (hnp : p ≤ n) :
    (List.range (n / p + 1)).map (fun j => f (j * p)) =
      f 0 :: (List.range ((n - p) / p + 1)).map (fun j => f (p + j * p)) := by
  rw [Nat.div_eq_sub_div hp hnp, List.range_succ_eq_map, List.map_cons, List.map_map]
  simp only [Nat.zero_mul]
  congr 1
  apply List.map_congr_left
  intro j _
  simp only [Function.comp_apply]
  congr 1
  rw [Nat.succ_mul]
  omega

theorem tiledLoop_eq (gene : List Char) (s : Nat) (asm : List Char → List Char)
    (p : Nat) (hp : 0 < p) :
    ∀ fuel i acc, gene.length + 2 ≤ fuel + i →
      tiledLoop gene s asm p fuel i acc =
        acc ++ (if i + s ≤ gene.length then
          (List.range ((gene.length - i - s) / p + 1)).map
            (fun j => asm (pySlice gene (i + j * p) (i + j * p + s)))
          else []) := by
  intro fuel
  induction fuel with
  | zero =>
    intro i acc hfl
    have hc : ¬ (i + s ≤ gene.length) := by omega
    rw [if_neg hc, List.append_nil]
    rfl
  | succ fuel ih =>
    intro i acc hfl
    rw [tiledLoop]
    by_cases hc : i + s ≤ gene.length
    · rw [if_pos hc, if_pos hc, ih (i + p) _ (by omega)]
      by_cases hc2 : i + p + s ≤ gene.length
      · rw [if_pos hc2]
        have harith : gene.length - (i + p) - s = gene.length - i - s - p := by omega
        have key : (List.range ((gene.length - i - s) / p + 1)).map
              (fun j => asm (pySlice gene (i + j * p) (i + j * p + s))) =
            asm (pySlice gene (i + 0) (i + 0 + s)) ::
              (List.range ((gene.length - i - s - p) / p + 1)).map
                (fun j => asm (pySlice gene (i + (p + j * p)) (i + (p + j * p) + s))) :=
          range_div_succ_map (fun off => asm (pySlice gene (i + off) (i + off + s)))
            (gene.length - i - s) p hp (by omega)
        rw [key, harith]
        simp only [Nat.add_zero, ← Nat.add_assoc, List.append_assoc, List.singleton_append]
      · rw [if_neg hc2, List.append_nil]
        have hdiv : (gene.length - i - s) / p = 0 := Nat.div_eq_of_lt (by omega)
        rw [hdiv]
        simp [List.range_succ]
    · rw [if_neg hc, if_neg hc, List.append_nil]

/-- C9.  For every catalogued system, every sequence of length `L ≥ s`
(`s` the system's spacer length) and every positive spacing `p`, the tiling
generator yields exactly `⌊(L - s) / p⌋ + 1` windows, taken at offsets
`0, p, 2p, …` in left-to-right order, each assembled per system; and every
emitted window is exactly `s` nucleotides long. -/
theorem c9_tiling_generator (system : String) (cas : CasRecord)
    (hcas : SYSTEM_TO_CAS system = some cas) (gene : List Char) (p : Nat)
    (hp : 0 < p) (hL : cas.spacer_length ≤ gene.length) :
    tiled_gRNAs_from_seq gene system p =
      some ((List.range ((gene.length - cas.spacer_length) / p + 1)).map
        (fun j => tileAssemble system cas
          (pySlice gene (j * p) (j * p + cas.spacer_length)))) ∧
    ∀ j ≤ (gene.length - cas.spacer_length) / p,
      (pySlice gene (j * p) (j * p + cas.spacer_length)).length = cas.spacer_length := by
  constructor
  · rw [tiled_gRNAs_from_seq, hcas]
    show some (tiledLoop gene cas.spacer_length (tileAssemble system cas) p
      (gene.length + 2) 0 []) = _
    rw [tiledLoop_eq gene cas.spacer_length (tileAssemble system cas) p hp
      (gene.length + 2) 0 [] (by omega)]
    rw [if_pos (by omega), List.nil_append]
    simp only [Nat.zero_add, Nat.sub_zero]
  · intro j hj
    rw [length_pySlice]
    have hjp : j * p ≤ gene.length - cas.spacer_length := by
      calc j * p ≤ ((gene.length - cas.spacer_length) / p) * p :=
            Nat.mul_le_mul_right p hj
        _ ≤ gene.length - cas.spacer_length := Nat.div_mul_le_self _ _
    omega

theorem c9_tiling_generator_witness :
    (SYSTEM_TO_CAS "1" = some SpCas9 ∧ 0 < 7 ∧
      SpCas9.spacer_length ≤ (List.replicate 30 'A').length) ∧
    (tiled_gRNAs_from_seq (List.replicate 30 'A') "1" 7 =
      some ((List.range (((List.replicate 30 'A').length - SpCas9.spacer_length) / 7 + 1)).map
        (fun j => tileAssemble "1" SpCas9
          (pySlice (List.replicate 30 'A') (j * 7) (j * 7 + SpCas9.spacer_length)))) ∧
    ∀ j ≤ ((List.replicate 30 'A').length - SpCas9.spacer_length) / 7,
      (pySlice (List.replicate 30 'A') (j * 7) (j * 7 + SpCas9.spacer_length)).length =
        SpCas9.spacer_length) :=
  ⟨⟨rfl, by decide, by decide⟩,
    c9_tiling_generator "1" SpCas9 rfl (List.replicate 30 'A') 7 (by decide) (by decide)⟩

/-! ### C7: the hairpin penalty -/

/-- Number of consecutive matching positions (out of the 6 probed), walking
from the innermost base outward up to the first mismatch. -/
def matchRun (eqb : Nat → Bool) : Nat :=
  ((List.range 6).takeWhile eqb).length

theorem matchLoop_eq (eqb : Nat → Bool) :
    matchLoop eqb 6 0 0 = matchRun eqb - 1 := by
  have hr : List.range 6 = [0, 1, 2, 3, 4, 5] := rfl
  rw [matchRun, hr]
  rcases h0 : eqb 0 <;> rcases h1 : eqb 1 <;> rcases h2 : eqb 2 <;> rcases h3 : eqb 3 <;>
    rcases h4 : eqb 4 <;> rcases h5 : eqb 5 <;>
    simp [matchLoop, List.takeWhile_cons, h0, h1, h2, h3, h4, h5]

/-- Per-probe contribution following the amended claim: `matchLength` is
one less than the number of consecutive matches (0 when nothing matches);
contribute 0 when `matchLength < 2`, else `2 ^ hbonds - 1` where `hbonds`
sums the G/C = 3, A/T = 2 weights of the first `matchLength` matched bases
(read from the reverse complement). -/
def hairpinContribAmended (charSeq revC : List Char) (len_seq start_inc end_excl : Nat) :
    Nat :=
  let m := matchRun (hairpinEqb charSeq revC start_inc (end_excl - 6) len_seq)
  let matchLength := m - 1
  if matchLength < 2 then 0
  else 2 ^ ((List.range matchLength).map
    (fun j => hbondWeight (revC.getD (len_seq - 1 - start_inc - 5 + j) '?'))).sum - 1

/-- The amended hairpin-penalty formula: sum over stem-spacer lengths `k` in
`[4,9]` and start positions `i in range(len - k - 12)` (one short of the
last window at which the probed region still fits) of the amended
per-probe contribution. -/
def hairpinAmended (w : List Char) : Nat :=
  ((List.range' 4 6).map (fun k =>
    ((List.range (w.length - k - 12)).map (fun i =>
      hairpinContribAmended w (rcT w) w.length i (i + k + 12))).sum)).sum

/-- The hairpin-penalty formula exactly as the claim states it: `i` ranges
over every start position at which the probed region `[i, i+k+12)` fits in
the window, `matchLength` is the full number of positions matched before
the first mismatch, the threshold is `matchLength ≥ 2`, and `hbonds` sums
the weights over the whole matched run. -/
def hairpinClaim (w : List Char) : Nat :=
  ((List.range' 4 6).map (fun k =>
    ((List.range (w.length + 1 - (k + 12))).map (fun i =>
      let m := matchRun (hairpinEqb w (rcT w) i (i + k + 12 - 6) w.length)
      if m < 2 then 0
      else 2 ^ ((List.range m).map
        (fun j => hbondWeight ((rcT w).getD (w.length - 1 - i - 5 + j) '?'))).sum - 1)).sum)).sum

theorem hairpinContrib_eq (charSeq revC : List Char) (len_seq start_inc end_excl : Nat) :
    2 ^ count_hbonds charSeq start_inc end_excl revC len_seq - 1 =
      hairpinContribAmended charSeq revC len_seq start_inc end_excl := by
  simp only [count_hbonds, hairpinContribAmended, matchLoop_eq]
  by_cases h : matchRun (hairpinEqb charSeq revC start_inc (end_excl - 6) len_seq) - 1 < 2
  · simp [h]
  · simp [h]

/-- C7 counterexample.  On the window `AAAAAAAAAATTAAAA` (length 16) the
claim's formula probes `(k, i) = (4, 0)`, finds a 2-base matched run and
contributes `2 ^ 4 - 1 = 15`, while the code's `range(len - k - 12)` never
probes that position at all and its `match_length` would in any case be one
less than the run: `hairpin_counter` returns 0, not 15. -/
theorem c7_hairpin_counterexample :
    hairpin_counter "AAAAAAAAAATTAAAA".toList = some 0 ∧
    hairpinClaim "AAAAAAAAAATTAAAA".toList = 15 ∧
    hairpin_counter "AAAAAAAAAATTAAAA".toList ≠ some (hairpinClaim "AAAAAAAAAATTAAAA".toList) := by
  refine ⟨?_, ?_, ?_⟩ <;> decide

/-- C7 (amended).  For every valid-DNA window, `hairpin_counter` equals the
double sum over `k` in `[4,9]` and `i in range(len - k - 12)` of a
contribution in which `matchLength` is one less than the number of
consecutive matches and the hydrogen-bond weights are summed over the first
`matchLength` matched bases. -/
theorem c7_hairpin_amended (w : List Char) (hv : ∀ c ∈ w, c ∈ dnaChars) :
    hairpin_counter w = some (hairpinAmended w) := by
  have h1 : hairpin_counter w = (reverse_complement (w.map Char.toUpper)).map
      (fun rcSeq => hairpin_core (w.map Char.toUpper) rcSeq (w.map Char.toUpper).length) :=
    rfl
  rw [h1, map_toUpper_valid hv, rc_valid hv]
  show some (hairpin_core w (rcT w) w.length) = some (hairpinAmended w)
  congr 1
  rw [hairpin_core, hairpinAmended]
  apply congrArg List.sum
  apply List.map_congr_left
  intro k _
  apply congrArg List.sum
  apply List.map_congr_left
  intro i _
  exact hairpinContrib_eq w (rcT w) w.length i (i + k + 12)

theorem c7_hairpin_amended_witness :
    (∀ c ∈ "ACGTACGTACGTACGTACGTACGT".toList, c ∈ dnaChars) ∧
    hairpin_counter "ACGTACGTACGTACGTACGTACGT".toList =
      some (hairpinAmended "ACGTACGTACGTACGTACGTACGT".toList) :=
  ⟨by decide, c7_hairpin_amended ("ACGTACGTACGTACGTACGTACGT".toList) (by decide)⟩

/-! ### Step lemmas for the scanning loop -/

theorem scanLoop_done (gene : List Char) (pl sl num : Nat)
    (asm : List Char → List Char) (find : Nat → Option (List Char × Int × Int))
    (fuel i : Nat) (prev : Int) (acc : List (List Char × Int × Int))
    (h : acc.length = num) :
    scanLoop gene pl sl num asm find fuel i prev acc = acc := by
  cases fuel with
  | zero => rfl
  | succ fuel =>
    rw [scanLoop]
    by_cases hc : i + pl < gene.length
    · rw [if_pos hc, if_pos h]
    · rw [if_neg hc]

theorem scanLoop_step_none (gene : List Char) (pl sl num : Nat)
    (asm : List Char → List Char) (find : Nat → Option (List Char × Int × Int))
    (fuel i : Nat) (prev : Int) (grnas : List (List Char × Int × Int))
    (hc : i + pl < gene.length) (hn : ¬ grnas.length = num) (hf : find i = none) :
    scanLoop gene pl sl num asm find (fuel + 1) i prev grnas =
      scanLoop gene pl sl num asm find fuel (i + 1) prev grnas := by
  rw [scanLoop, if_pos hc, if_neg hn, hf]

theorem scanLoop_step_reject (gene : List Char) (pl sl num : Nat)
    (asm : List Char → List Char) (find : Nat → Option (List Char × Int × Int))
    (fuel i : Nat) (prev : Int) (grnas : List (List Char × Int × Int))
    (sp : List Char) (cur ext : Int)
    (hc : i + pl < gene.length) (hn : ¬ grnas.length = num)
    (hf : find i = some (sp, cur, ext))
    (hrej : sp = [] ∨ cur - prev ≤ (sl : Int)) :
    scanLoop gene pl sl num asm find (fuel + 1) i prev grnas =
      scanLoop gene pl sl num asm find fuel (i + 1) prev grnas := by
  rw [scanLoop, if_pos hc, if_neg hn, hf]
  exact if_pos hrej

theorem scanLoop_step_accept (gene : List Char) (pl sl num : Nat)
    (asm : List Char → List Char) (find : Nat → Option (List Char × Int × Int))
    (fuel i : Nat) (prev : Int) (grnas : List (List Char × Int × Int))
    (sp : List Char) (cur ext : Int)
    (hc : i + pl < gene.length) (hn : ¬ grnas.length = num)
    (hf : find i = some (sp, cur, ext))
    (hacc : ¬(sp = [] ∨ cur - prev ≤ (sl : Int))) :
    scanLoop gene pl sl num asm find (fuel + 1) i prev grnas =
      scanLoop gene pl sl num asm find fuel (i + 1 + sl) cur
        (grnas ++ [(asm sp, cur, ext)]) := by
  rw [scanLoop, if_pos hc, if_neg hn, hf]
  exact if_neg hacc

/-! ### C1: SpCas9 single-PAM-site scan -/

theorem spcas9_find_none (gene : List Char) {i : Nat} (j : Nat)
    (hj : j + 2 < gene.length) (hne : j ≠ i)
    (honly : ∀ j', j' < gene.length → j' ≠ i →
      ¬(gene.getD j' 'X' = 'G' ∧ gene.getD (j' + 1) 'X' = 'G'))
    (hcc : ∀ j', j' < gene.length →
      ¬(gene.getD j' 'X' = 'C' ∧ gene.getD (j' + 1) 'X' = 'C')) :
    cas9Find gene ["GG".toList] ["CC".toList] 1 2 20 j = none := by
  have hpair := pySlice_pair gene j 'X' (by omega)
  have hGG : "GG".toList = ['G', 'G'] := rfl
  have hCC : "CC".toList = ['C', 'C'] := rfl
  have hg : ¬ pySlice gene j (j + 2) ∈ ["GG".toList] := by
    intro hm
    rw [List.mem_singleton, hpair, hGG] at hm
    injection hm with ha hm2
    injection hm2 with hb _
    exact honly j (by omega) hne ⟨ha, hb⟩
  have hc : ¬ pySlice gene j (j + 2) ∈ ["CC".toList] := by
    intro hm
    rw [List.mem_singleton, hpair, hCC] at hm
    injection hm with ha hm2
    injection hm2 with hb _
    exact hcc j (by omega) ⟨ha, hb⟩
  simp only [cas9Find]
  rw [if_neg (by tauto), if_neg (by tauto)]

theorem spcas9_find_at (gene : List Char) (i : Nat) (hlo : 42 ≤ i)
    (hhi : i + 3 ≤ gene.length)
    (hg1 : gene.getD i 'X' = 'G') (hg2 : gene.getD (i + 1) 'X' = 'G') :
    cas9Find gene ["GG".toList] ["CC".toList] 1 2 20 i =
      some (pySlice gene (i - 21) (i - 1), ((i : Int) - 21, (i : Int) - 21)) := by
  have hpair := pySlice_pair gene i 'X' (by omega)
  have hmem : pySlice gene i (i + 2) ∈ ["GG".toList] := by
    rw [List.mem_singleton, hpair, hg1, hg2]
    rfl
  simp only [cas9Find]
  rw [if_pos ⟨by omega, hmem⟩]
  have e1 : i - 1 - 20 = i - 21 := by omega
  rw [e1]
  have e2 : (i : Int) - ((1 : Nat) : Int) - ((20 : Nat) : Int) = (i : Int) - 21 := by
    push_cast
    ring
  rw [e2]

theorem spcas9_scanLoop_single (gene : List Char) (i : Nat) (hlo : 42 ≤ i)
    (hhi : i + 3 ≤ gene.length)
    (hg1 : gene.getD i 'X' = 'G') (hg2 : gene.getD (i + 1) 'X' = 'G')
    (honly : ∀ j', j' < gene.length → j' ≠ i →
      ¬(gene.getD j' 'X' = 'G' ∧ gene.getD (j' + 1) 'X' = 'G'))
    (hcc : ∀ j', j' < gene.length →
      ¬(gene.getD j' 'X' = 'C' ∧ gene.getD (j' + 1) 'X' = 'C'))
    (asm : List Char → List Char) :
    ∀ fuel j, j ≤ i → gene.length + 2 ≤ fuel + j →
      scanLoop gene 2 20 1 asm (cas9Find gene ["GG".toList] ["CC".toList] 1 2 20)
          fuel j 0 [] =
        [(asm (pySlice gene (i - 21) (i - 1)), ((i : Int) - 21, (i : Int) - 21))] := by
  intro fuel
  induction fuel with
  | zero => intro j hji hfl; omega
  | succ fuel ih =>
    intro j hji hfl
    by_cases hne : j = i
    · subst hne
      have hfind := spcas9_find_at gene j hlo hhi hg1 hg2
      have hlen20 : (pySlice gene (j - 21) (j - 1)).length = 20 := by
        rw [length_pySlice]
        omega
      have hsp : pySlice gene (j - 21) (j - 1) ≠ [] := by
        intro he
        rw [he] at hlen20
        simp at hlen20
      have hrej : ¬(pySlice gene (j - 21) (j - 1) = [] ∨
          ((j : Int) - 21) - 0 ≤ ((20 : Nat) : Int)) := by
        push_neg
        refine ⟨hsp, ?_⟩
        have h42 : (42 : Int) ≤ (j : Int) := by exact_mod_cast hlo
        push_cast
        omega
      rw [scanLoop_step_accept gene 2 20 1 asm _ fuel j 0 [] _ _ _
        (by omega) (by simp) hfind hrej]
      rw [List.nil_append]
      exact scanLoop_done gene 2 20 1 asm _ fuel (j + 1 + 20) _ _ rfl
    · rw [scanLoop_step_none gene 2 20 1 asm _ fuel j 0 [] (by omega) (by simp)
        (spcas9_find_none gene j (by omega) hne honly hcc)]
      exact ih (j + 1) (by omega) (by omega)
/-- C1 counterexample.  On the spec's end-to-end sequence
`ATCGATCGATCGATCGATCGGGACGTACGTACGTACGTACGTACGT` the SpCas9 scan with
count 1 returns no guides at all (`some []`), not the claimed single guide
`ATCGATCGATCGATCGATCG` + scaffold: the code requires one `N` nucleotide
between the spacer and the `GG`, and the `GG` windows at positions 19 and
20 fail the `i ≥ 21` guard while the sequence has no `CC`. -/
theorem c1_end_to_end_counterexample :
    generate_gRNA_from_seq "ATCGATCGATCGATCGATCGGGACGTACGTACGTACGTACGTACGT".toList "1" 1 =
      some [] ∧
    generate_gRNA_from_seq "ATCGATCGATCGATCGATCGGGACGTACGTACGTACGTACGTACGT".toList "1" 1 ≠
      some ["ATCGATCGATCGATCGATCG".toList ++ SpCas9.scaffold] := by
  refine ⟨?_, ?_⟩ <;> decide

/-- C1 (amended).  For SpCas9, on a valid target whose only `GG`
occurrence sits at position `i` with `42 ≤ i ≤ len - 3` and which contains
no `CC`, a knockout scan with count 1 returns exactly one guide, namely
`gene[i-21 : i-1]` + scaffold: the 20-nt spacer ends one nucleotide before
the `GG` (the `N` of the `NGG` PAM), and the site is accepted only because
its start `i - 21` exceeds `spacer_length = 20` (forced by the
`prev_start = 0` initialisation). -/
theorem c1_single_pam_site_amended (gene : List Char) (i : Nat)
    (hv : ∀ c ∈ gene, c ∈ dnaChars)
    (hlo : 42 ≤ i) (hhi : i + 3 ≤ gene.length)
    (hg1 : gene.getD i 'X' = 'G') (hg2 : gene.getD (i + 1) 'X' = 'G')
    (honly : ∀ j', j' < gene.length → j' ≠ i →
      ¬(gene.getD j' 'X' = 'G' ∧ gene.getD (j' + 1) 'X' = 'G'))
    (hcc : ∀ j', j' < gene.length →
      ¬(gene.getD j' 'X' = 'C' ∧ gene.getD (j' + 1) 'X' = 'C')) :
    generate_gRNA_from_seq gene "1" 1 =
      some [pySlice gene (i - 21) (i - 1) ++ SpCas9.scaffold] := by
  have h0 : generate_gRNA_from_seq gene "1" 1 =
      some ((scanLoop gene 2 20 1 (fun sp => sp ++ SpCas9.scaffold)
        (cas9Find gene ["GG".toList] ["CC".toList] 1 2 20)
        (gene.length + 2) 0 0 []).map Prod.fst) := rfl
  rw [h0, spcas9_scanLoop_single gene i hlo hhi hg1 hg2 honly hcc _
    (gene.length + 2) 0 (by omega) (by omega)]
  rfl

theorem c1_single_pam_site_witness :
    ((∀ c ∈ "ATATATATATATATATATATATATATATATATATATATATATGGT".toList, c ∈ dnaChars) ∧
      42 ≤ 42 ∧
      42 + 3 ≤ "ATATATATATATATATATATATATATATATATATATATATATGGT".toList.length ∧
      "ATATATATATATATATATATATATATATATATATATATATATGGT".toList.getD 42 'X' = 'G' ∧
      "ATATATATATATATATATATATATATATATATATATATATATGGT".toList.getD (42 + 1) 'X' = 'G' ∧
      (∀ j', j' < "ATATATATATATATATATATATATATATATATATATATATATGGT".toList.length → j' ≠ 42 →
        ¬("ATATATATATATATATATATATATATATATATATATATATATGGT".toList.getD j' 'X' = 'G' ∧
          "ATATATATATATATATATATATATATATATATATATATATATGGT".toList.getD (j' + 1) 'X' = 'G')) ∧
      (∀ j', j' < "ATATATATATATATATATATATATATATATATATATATATATGGT".toList.length →
        ¬("ATATATATATATATATATATATATATATATATATATATATATGGT".toList.getD j' 'X' = 'C' ∧
          "ATATATATATATATATATATATATATATATATATATATATATGGT".toList.getD (j' + 1) 'X' = 'C'))) ∧
    generate_gRNA_from_seq "ATATATATATATATATATATATATATATATATATATATATATGGT".toList "1" 1 =
      some [pySlice "ATATATATATATATATATATATATATATATATATATATATATGGT".toList (42 - 21) (42 - 1) ++
        SpCas9.scaffold] :=
  ⟨⟨by decide, by decide, by decide, by decide, by decide, by decide, by decide⟩,
    c1_single_pam_site_amended "ATATATATATATATATATATATATATATATATATATATATATGGT".toList 42
      (by decide) (by decide) (by decide) (by decide) (by decide) (by decide) (by decide)⟩

/-! ### C4 and C10: start-position bookkeeping of the scanner -/

theorem scanLoop_invariant (gene : List Char) (pl sl num : Nat)
    (asm : List Char → List Char) (find : Nat → Option (List Char × Int × Int)) :
    ∀ fuel i (prev : Int) (acc : List (List Char × Int × Int)),
      0 ≤ prev →
      acc.Pairwise (fun a b => a.2.1 + (sl : Int) < b.2.1) →
      (∀ x ∈ acc, (sl : Int) < x.2.1 ∧ x.2.1 ≤ prev) →
      (scanLoop gene pl sl num asm find fuel i prev acc).Pairwise
          (fun a b => a.2.1 + (sl : Int) < b.2.1) ∧
        ∀ x ∈ scanLoop gene pl sl num asm find fuel i prev acc,
          (sl : Int) < x.2.1 := by
  intro fuel
  induction fuel with
  | zero =>
    intro i prev acc _ hpw hub
    exact ⟨hpw, fun x hx => (hub x hx).1⟩
  | succ fuel ih =>
    intro i prev acc h0 hpw hub
    by_cases hc : i + pl < gene.length
    · by_cases hn : acc.length = num
      · rw [scanLoop_done gene pl sl num asm find (fuel + 1) i prev acc hn]
        exact ⟨hpw, fun x hx => (hub x hx).1⟩
      · rcases hf : find i with _ | ⟨sp, cur, ext⟩
        · rw [scanLoop_step_none gene pl sl num asm find fuel i prev acc hc hn hf]
          exact ih (i + 1) prev acc h0 hpw hub
        · by_cases hrej : sp = [] ∨ cur - prev ≤ (sl : Int)
          · rw [scanLoop_step_reject gene pl sl num asm find fuel i prev acc sp cur ext
              hc hn hf hrej]
            exact ih (i + 1) prev acc h0 hpw hub
          · rw [scanLoop_step_accept gene pl sl num asm find fuel i prev acc sp cur ext
              hc hn hf hrej]
            push_neg at hrej
            have hcur : (sl : Int) < cur := by
              have := hrej.2
              omega
            apply ih (i + 1 + sl) cur (acc ++ [(asm sp, cur, ext)])
            · omega
            · refine List.pairwise_append.mpr ⟨hpw, by simp, ?_⟩
              intro a ha b hb
              simp only [List.mem_singleton] at hb
              subst hb
              show a.2.1 + (sl : Int) < cur
              have := (hub a ha).2
              have := hrej.2
              omega
            · intro x hx
              rcases List.mem_append.mp hx with hx | hx
              · have h1 := (hub x hx).1
                have h2 := (hub x hx).2
                have := hrej.2
                exact ⟨h1, by omega⟩
              · simp only [List.mem_singleton] at hx
                subst hx
                exact ⟨hcur, le_refl _⟩
    · have hstop : scanLoop gene pl sl num asm find (fuel + 1) i prev acc = acc := by
        rw [scanLoop, if_neg hc]
      rw [hstop]
      exact ⟨hpw, fun x hx => (hub x hx).1⟩

theorem scan_gRNAs_invariant (gene : List Char) (system : String) (cas : CasRecord)
    (hcas : SYSTEM_TO_CAS system = some cas) (num : Nat)
    (l : List (List Char × Int × Int)) (h : scan_gRNAs gene system num = some l) :
    l.Pairwise (fun a b => a.2.1 + (cas.spacer_length : Int) < b.2.1) ∧
      ∀ x ∈ l, (cas.spacer_length : Int) < x.2.1 := by
  rw [scan_gRNAs, hcas] at h
  simp only [Option.bind_eq_bind, Option.some_bind] at h
  rcases hpam : cas.pam with _ | pams <;> rw [hpam] at h
  · simp at h
  rcases hn : cas.n_length with _ | n <;> rw [hn] at h
  · simp at h
  rcases hpl : cas.pam_length with _ | pl <;> rw [hpl] at h
  · simp at h
  simp only [Option.some_bind] at h
  rcases hrc : pams.mapM reverse_complement with _ | rcpams <;> rw [hrc] at h
  · simp at h
  simp only [Option.some_bind] at h
  by_cases hsys : system = "1" ∨ system = "2"
  · rw [if_pos hsys] at h
    have hl : l = scanLoop gene pl cas.spacer_length num (fun sp => sp ++ cas.scaffold)
        (cas9Find gene pams rcpams n pl cas.spacer_length) (gene.length + 2) 0 0 [] := by
      simpa using h.symm
    subst hl
    exact scanLoop_invariant gene pl cas.spacer_length num _ _ (gene.length + 2) 0 0 []
      le_rfl (by simp) (by simp)
  · rw [if_neg hsys] at h
    have hl : l = scanLoop gene pl cas.spacer_length num
        (fun sp => cas.scaffold ++ sp ++ "TTTTTT".toList)
        (cas12aFind gene pams rcpams n pl cas.spacer_length) (gene.length + 2) 0 0 [] := by
      simpa using h.symm
    subst hl
    exact scanLoop_invariant gene pl cas.spacer_length num _ _ (gene.length + 2) 0 0 []
      le_rfl (by simp) (by simp)

/-- C4 counterexample.  For LbCas12a (system `'4'`) on the sequence
`C^47 TTTA C^23 TAAA CC`, the scanner accepts two candidates whose spacer
text is extracted from the very same offset 51 (the forward hit at the
`TTTA` PAM and the reverse-complement hit at `TAAA` both slice
`gene[51:74]`), so the extraction-start distance is `0`, not more than
`spacer_length = 23`; the recorded bookkeeping starts are 24 and 78. -/
theorem c4_extraction_start_counterexample :
    (scan_gRNAs
        "CCCCCCCCCCCCCCCCCCCCCCCCCCCCCCCCCCCCCCCCCCCCCCCTTTACCCCCCCCCCCCCCCCCCCCCCCTAAACC".toList
        "4" 2).map (fun l => l.map (fun t => (t.2.1, t.2.2))) =
      some [(24, 51), (78, 51)] ∧
    (generate_gRNA_from_seq
        "CCCCCCCCCCCCCCCCCCCCCCCCCCCCCCCCCCCCCCCCCCCCCCCTTTACCCCCCCCCCCCCCCCCCCCCCCTAAACC".toList
        "4" 2).map List.length = some 2 ∧
    ¬ ((LbCas12a.spacer_length : Int) < |(51 : Int) - 51|) := by
  refine ⟨?_, ?_, ?_⟩ <;> decide

/-- C4 (amended).  For every PAM-bearing system and every input, the
*recorded* start positions tracked by the scanner's spacing bookkeeping
(`current_start` / `prev_start`) of any two accepted candidates differ by
strictly more than `spacer_length`; for the Cas9-family systems this
recorded value coincides with the extraction offset of the spacer window,
but for the Cas12a family it does not, and the extraction offsets
themselves can coincide. -/
theorem c4_recorded_start_spacing (system : String) (cas : CasRecord)
    (hcas : SYSTEM_TO_CAS system = some cas) (gene : List Char) (num : Nat)
    (l : List (List Char × Int × Int)) (h : scan_gRNAs gene system num = some l) :
    l.Pairwise (fun a b => (cas.spacer_length : Int) < |b.2.1 - a.2.1|) := by
  have hinv := scan_gRNAs_invariant gene system cas hcas num l h
  refine hinv.1.imp ?_
  intro a b hab
  have habs : |b.2.1 - a.2.1| = b.2.1 - a.2.1 := abs_of_nonneg (by omega)
  rw [habs]
  omega

theorem c4_recorded_start_spacing_witness :
    (SYSTEM_TO_CAS "1" = some SpCas9 ∧
      scan_gRNAs "ATATATATATATATATATATATATATATATATATATATATATGGT".toList "1" 1 =
        some [(pySlice "ATATATATATATATATATATATATATATATATATATATATATGGT".toList 21 41 ++
          SpCas9.scaffold, ((21 : Int), (21 : Int)))]) ∧
    List.Pairwise (fun a b => ((SpCas9.spacer_length : Int) < |b.2.1 - a.2.1|))
      [(pySlice "ATATATATATATATATATATATATATATATATATATATATATGGT".toList 21 41 ++
        SpCas9.scaffold, ((21 : Int), (21 : Int)))] :=
  ⟨⟨rfl, by decide⟩,
    c4_recorded_start_spacing "1" SpCas9 rfl
      "ATATATATATATATATATATATATATATATATATATATATATGGT".toList 1
      [(pySlice "ATATATATATATATATATATATATATATATATATATATATATGGT".toList 21 41 ++
        SpCas9.scaffold, ((21 : Int), (21 : Int)))] (by decide)⟩

/-- C10.  Because `prev_start` is initialised to 0, a candidate found while
no candidate has yet been accepted is rejected whenever its recorded start
is at most `spacer_length`; consequently every accepted candidate of any
scan has recorded start strictly greater than `spacer_length` (none in
`[0, spacer_length]`), and a valid PAM site whose spacer begins at offset 0
(recorded start 0) is silently skipped, as on
`ATCGATCGATCGATCGATCG T GG ATATATATAT` where the `NGG` site at `i = 21`
yields the candidate `(gene[0:20], start 0)` and the scan returns no
guides. -/
theorem c10_prev_start_zero_init (system : String) (cas : CasRecord)
    (hcas : SYSTEM_TO_CAS system = some cas) (gene : List Char) (num : Nat)
    (l : List (List Char × Int × Int)) (h : scan_gRNAs gene system num = some l) :
    (∀ x ∈ l, (cas.spacer_length : Int) < x.2.1) ∧
    cas9Find "ATCGATCGATCGATCGATCGTGGATATATATAT".toList
        ["GG".toList] ["CC".toList] 1 2 20 21 =
      some (pySlice "ATCGATCGATCGATCGATCGTGGATATATATAT".toList 0 20, (0, 0)) ∧
    generate_gRNA_from_seq "ATCGATCGATCGATCGATCGTGGATATATATAT".toList "1" 1 = some [] := by
  refine ⟨(scan_gRNAs_invariant gene system cas hcas num l h).2, ?_, ?_⟩ <;> decide

theorem c10_prev_start_zero_init_witness :
    (SYSTEM_TO_CAS "1" = some SpCas9 ∧
      scan_gRNAs "ATATATATATATATATATATATATATATATATATATATATATGGT".toList "1" 1 =
        some [(pySlice "ATATATATATATATATATATATATATATATATATATATATATGGT".toList 21 41 ++
          SpCas9.scaffold, ((21 : Int), (21 : Int)))]) ∧
    ((∀ x ∈ [(pySlice "ATATATATATATATATATATATATATATATATATATATATATGGT".toList 21 41 ++
        SpCas9.scaffold, ((21 : Int), (21 : Int)))], (SpCas9.spacer_length : Int) < x.2.1) ∧
      cas9Find "ATCGATCGATCGATCGATCGTGGATATATATAT".toList
          ["GG".toList] ["CC".toList] 1 2 20 21 =
        some (pySlice "ATCGATCGATCGATCGATCGTGGATATATATAT".toList 0 20, (0, 0)) ∧
      generate_gRNA_from_seq "ATCGATCGATCGATCGATCGTGGATATATATAT".toList "1" 1 = some []) :=
  ⟨⟨rfl, by decide⟩,
    c10_prev_start_zero_init "1" SpCas9 rfl
      "ATATATATATATATATATATATATATATATATATATATATATGGT".toList 1
      [(pySlice "ATATATATATATATATATATATATATATATATATATATATATGGT".toList 21 41 ++
        SpCas9.scaffold, ((21 : Int), (21 : Int)))] (by decide)⟩

/-! ### C8: the structure-ranked selector -/

/-- Total hairpin penalty of a valid window (the value inside
`hairpin_counter`'s `some`). -/
def hairpin_total (w : List Char) : Nat :=
  hairpin_core w (rcT w) w.length

theorem hairpin_counter_valid {w : List Char} (hv : ∀ c ∈ w, c ∈ dnaChars) :
    hairpin_counter w = some (hairpin_total w) := by
  have h1 : hairpin_counter w = (reverse_complement (w.map Char.toUpper)).map
      (fun rcSeq => hairpin_core (w.map Char.toUpper) rcSeq (w.map Char.toUpper).length) :=
    rfl
  rw [h1, map_toUpper_valid hv, rc_valid hv]
  rfl

/-- All scored windows of the structure-ranked selector: every stride-1
window of length `sl` paired with its hairpin penalty. -/
def windowPairsT (gene : List Char) (sl : Nat) : List (List Char × Nat) :=
  (List.range (gene.length + 1 - sl)).map
    (fun i => (pySlice gene i (i + sl), hairpin_total (pySlice gene i (i + sl))))

theorem windowPairsT_length (gene : List Char) (sl : Nat) :
    (windowPairsT gene sl).length = gene.length + 1 - sl := by
  simp [windowPairsT]

theorem windowPairsT_getD (gene : List Char) (sl i : Nat)
    (h : i < gene.length + 1 - sl) :
    (windowPairsT gene sl).getD i ([], 0) =
      (pySlice gene i (i + sl), hairpin_total (pySlice gene i (i + sl))) := by
  rw [windowPairsT, List.getD_eq_getElem?_getD,
    List.getElem?_eq_getElem (by simpa using h)]
  simp

theorem windowPairsT_valid {gene : List Char} (hv : ∀ c ∈ gene, c ∈ dnaChars)
    {sl : Nat} {p : List Char × Nat} (hp : p ∈ windowPairsT gene sl) :
    ∀ c ∈ p.1, c ∈ dnaChars := by
  rw [windowPairsT] at hp
  obtain ⟨i, _, rfl⟩ := List.mem_map.mp hp
  intro c hc
  exact hv c (mem_pySlice hc)

/-- The stable sort of the selector, annotated with the original window
index: Python's stable `sorted` is `mergeSort` under the lexicographic
penalty-then-index comparator. -/
def pamlessSorted (gene : List Char) (sl : Nat) : List (Nat × (List Char × Nat)) :=
  ((windowPairsT gene sl).enum).mergeSort (List.enumLE pamlessKey)

theorem pamlessSorted_map_snd (gene : List Char) (sl : Nat) :
    (pamlessSorted gene sl).map (fun t => t.2) =
      (windowPairsT gene sl).mergeSort pamlessKey :=
  List.mergeSort_enum

theorem pamlessKey_trans :
    ∀ a b c : List Char × Nat, pamlessKey a b → pamlessKey b c → pamlessKey a c := by
  intro a b c hab hbc
  simp only [pamlessKey, decide_eq_true_eq] at *
  omega

theorem pamlessKey_total :
    ∀ a b : List Char × Nat, pamlessKey a b || pamlessKey b a := by
  intro a b
  simp only [pamlessKey]
  rcases Nat.le_total a.2 b.2 with h | h <;> simp [h]

theorem enumLE_pamlessKey_iff (a b : Nat × (List Char × Nat)) :
    List.enumLE pamlessKey a b = true ↔
      (a.2.2 < b.2.2 ∨ (a.2.2 = b.2.2 ∧ a.1 ≤ b.1)) := by
  simp only [List.enumLE, pamlessKey]
  by_cases h1 : a.2.2 ≤ b.2.2 <;> by_cases h2 : b.2.2 ≤ a.2.2 <;>
    simp [h1, h2] <;> omega

theorem pamlessSorted_pairwise (gene : List Char) (sl : Nat) :
    (pamlessSorted gene sl).Pairwise
      (fun a b => a.2.2 < b.2.2 ∨ (a.2.2 = b.2.2 ∧ a.1 ≤ b.1)) := by
  have hs := List.sorted_mergeSort
    (fun a b c => List.enumLE_trans pamlessKey_trans a b c)
    (fun a b => List.enumLE_total pamlessKey_total a b)
    ((windowPairsT gene sl).enum)
  refine hs.imp ?_
  intro a b hab
  exact (enumLE_pamlessKey_iff a b).mp hab

theorem pamlessSorted_perm (gene : List Char) (sl : Nat) :
    (pamlessSorted gene sl).Perm ((windowPairsT gene sl).enum) :=
  List.mergeSort_perm _ _

theorem pamlessSpacers_valid {gene : List Char} (hv : ∀ c ∈ gene, c ∈ dnaChars)
    (sl : Nat) :
    (List.range (gene.length + 1 - sl)).mapM
      (fun i => (hairpin_counter (pySlice gene i (i + sl))).bind
        (fun g => pure (pySlice gene i (i + sl), g))) = some (windowPairsT gene sl) := by
  rw [windowPairsT]
  apply mapM_eq_some_map
  intro i _
  rw [hairpin_counter_valid (fun c hc => hv c (mem_pySlice hc))]
  rfl

theorem generate_PAMless_eq (gene : List Char) (system : String) (cas : CasRecord)
    (hcas : SYSTEM_TO_CAS system = some cas)
    (hv : ∀ c ∈ gene, c ∈ dnaChars) (num : Nat) :
    generate_PAMless_gRNA gene system num =
      some (((pamlessSorted gene cas.spacer_length).take num).map
        (fun t => cas.scaffold ++ rcT t.2.1)) := by
  rw [generate_PAMless_gRNA, hcas]
  simp only [Option.bind_eq_bind, Option.some_bind]
  rw [pamlessSpacers_valid hv cas.spacer_length]
  simp only [Option.some_bind]
  have hrcs : (((windowPairsT gene cas.spacer_length).mergeSort pamlessKey).take num).mapM
      (fun sp => reverse_complement sp.1) =
      some ((((windowPairsT gene cas.spacer_length).mergeSort pamlessKey).take num).map
        (fun sp => rcT sp.1)) := by
    apply mapM_eq_some_map
    intro p hp
    have hpw : p ∈ windowPairsT gene cas.spacer_length :=
      List.mem_mergeSort.mp (List.mem_of_mem_take hp)
    exact rc_valid (windowPairsT_valid hv hpw)
  rw [hrcs]
  simp only [Option.some_bind]
  congr 1
  rw [List.map_map, ← pamlessSorted_map_snd, ← List.map_take, List.map_map]
  rfl

theorem mem_enum_getD {α : Type} (d : α) {l : List α} {x : Nat × α}
    (h : x ∈ l.enum) : x.1 < l.length ∧ l.getD x.1 d = x.2 := by
  obtain ⟨k, hk, hx⟩ := List.mem_iff_getElem.mp h
  have hk' : k < l.length := by simpa using hk
  rw [List.getElem_enum] at hx
  subst hx
  refine ⟨hk', ?_⟩
  rw [List.getD_eq_getElem?_getD, List.getElem?_eq_getElem hk']
  rfl

theorem getD_mem_enum {α : Type} (d : α) {l : List α} {i : Nat}
    (h : i < l.length) : (i, l.getD i d) ∈ l.enum := by
  have h' : i < l.enum.length := by simpa using h
  have hmem := List.getElem_mem h'
  rw [List.getElem_enum] at hmem
  rw [List.getD_eq_getElem?_getD, List.getElem?_eq_getElem h]
  exact hmem

/-- C8.  For a Cas13-like system, the structure-ranked selector scores all
`len + 1 - spacerLength` stride-1 windows with the hairpin penalty, sorts
them stably by non-decreasing penalty (modelled by the lexicographic
penalty-then-original-index order on the index-annotated list
`pamlessSorted`, a permutation of all indexed windows), truncates to the
first `count` entries (all of them, with no error, when `count` exceeds
the window count), and returns for each selected window the scaffold
followed by the window's reverse complement; when one window has a
strictly smallest penalty, that window (reverse-complemented, after the
scaffold) comes first. -/
theorem c8_structure_ranked_selector (system : String) (cas : CasRecord)
    (hsys : system = "5" ∨ system = "6")
    (hcas : SYSTEM_TO_CAS system = some cas)
    (gene : List Char) (hv : ∀ c ∈ gene, c ∈ dnaChars) (num : Nat) :
    (windowPairsT gene cas.spacer_length).length =
      gene.length + 1 - cas.spacer_length ∧
    (∀ i, i < gene.length + 1 - cas.spacer_length →
      (windowPairsT gene cas.spacer_length).getD i ([], 0) =
        (pySlice gene i (i + cas.spacer_length),
          hairpin_total (pySlice gene i (i + cas.spacer_length))) ∧
      hairpin_counter (pySlice gene i (i + cas.spacer_length)) =
        some (hairpin_total (pySlice gene i (i + cas.spacer_length)))) ∧
    (pamlessSorted gene cas.spacer_length).Perm
      ((windowPairsT gene cas.spacer_length).enum) ∧
    (pamlessSorted gene cas.spacer_length).Pairwise
      (fun a b => a.2.2 < b.2.2 ∨ (a.2.2 = b.2.2 ∧ a.1 ≤ b.1)) ∧
    generate_gRNA_from_seq gene system num =
      some (((pamlessSorted gene cas.spacer_length).take num).map
        (fun t => cas.scaffold ++ rcT t.2.1)) ∧
    ((pamlessSorted gene cas.spacer_length).take num).length =
      min num (gene.length + 1 - cas.spacer_length) ∧
    (∀ i0, i0 < gene.length + 1 - cas.spacer_length →
      (∀ j, j < gene.length + 1 - cas.spacer_length → j ≠ i0 →
        ((windowPairsT gene cas.spacer_length).getD i0 ([], 0)).2 <
          ((windowPairsT gene cas.spacer_length).getD j ([], 0)).2) →
      1 ≤ num →
      ∃ rest, generate_gRNA_from_seq gene system num =
        some ((cas.scaffold ++
          rcT ((windowPairsT gene cas.spacer_length).getD i0 ([], 0)).1) :: rest)) := by
  have hgen : generate_gRNA_from_seq gene system num =
      generate_PAMless_gRNA gene system num := by
    rw [generate_gRNA_from_seq, if_pos hsys]
  have heq := generate_PAMless_eq gene system cas hcas hv num
  have hlenS : (pamlessSorted gene cas.spacer_length).length =
      (windowPairsT gene cas.spacer_length).length := by
    rw [pamlessSorted, List.length_mergeSort, List.enum_length]
  refine ⟨windowPairsT_length gene cas.spacer_length, ?_, pamlessSorted_perm gene _,
    pamlessSorted_pairwise gene _, by rw [hgen, heq], ?_, ?_⟩
  · intro i hi
    refine ⟨windowPairsT_getD gene cas.spacer_length i hi, ?_⟩
    apply hairpin_counter_valid
    intro c hc
    exact hv c (mem_pySlice hc)
  · rw [List.length_take, hlenS, windowPairsT_length]
  · intro i0 h0 hmin hnum
    have h0' : i0 < (windowPairsT gene cas.spacer_length).length := by
      rw [windowPairsT_length]; exact h0
    rcases hS : pamlessSorted gene cas.spacer_length with _ | ⟨hd, t⟩
    · rw [hS] at hlenS
      simp at hlenS
      omega
    · have hperm := pamlessSorted_perm gene cas.spacer_length
      rw [hS] at hperm
      have hmemh : hd ∈ (windowPairsT gene cas.spacer_length).enum :=
        hperm.mem_iff.mp (by simp)
      obtain ⟨hh1, hh2⟩ := mem_enum_getD ([], 0) hmemh
      have hpw := pamlessSorted_pairwise gene cas.spacer_length
      rw [hS] at hpw
      have hhead := (List.pairwise_cons.mp hpw).1
      by_cases hne : hd.1 = i0
      · obtain ⟨m, rfl⟩ : ∃ m, num = m + 1 := ⟨num - 1, by omega⟩
        refine ⟨(t.take m).map (fun t' => cas.scaffold ++ rcT t'.2.1), ?_⟩
        rw [hgen, heq, hS, List.take_succ_cons, List.map_cons]
        rw [hne] at hh2
        rw [← hh2]
      · exfalso
        have hmem0 : (i0, (windowPairsT gene cas.spacer_length).getD i0 ([], 0)) ∈
            hd :: t := hperm.mem_iff.mpr (getD_mem_enum ([], 0) h0')
        rcases List.mem_cons.mp hmem0 with heq0 | hmem0t
        · exact hne (congrArg Prod.fst heq0).symm
        · have hR := hhead _ hmem0t
          have hlt := hmin hd.1 (by rw [← windowPairsT_length gene cas.spacer_length]; exact hh1) hne
          rw [hh2] at hlt
          rcases hR with hR | ⟨hR, _⟩ <;> simp at hR hlt <;> omega

theorem c8_structure_ranked_selector_witness :
    (("5" = "5" ∨ "5" = "6") ∧ SYSTEM_TO_CAS "5" = some LshCas13a ∧
      (∀ c ∈ "ACGTACGTACGTACGTACGTACGTACGTAC".toList, c ∈ dnaChars)) ∧
    ((windowPairsT "ACGTACGTACGTACGTACGTACGTACGTAC".toList LshCas13a.spacer_length).length =
      "ACGTACGTACGTACGTACGTACGTACGTAC".toList.length + 1 - LshCas13a.spacer_length ∧
    (∀ i, i < "ACGTACGTACGTACGTACGTACGTACGTAC".toList.length + 1 - LshCas13a.spacer_length →
      (windowPairsT "ACGTACGTACGTACGTACGTACGTACGTAC".toList
          LshCas13a.spacer_length).getD i ([], 0) =
        (pySlice "ACGTACGTACGTACGTACGTACGTACGTAC".toList i (i + LshCas13a.spacer_length),
          hairpin_total (pySlice "ACGTACGTACGTACGTACGTACGTACGTAC".toList i
            (i + LshCas13a.spacer_length))) ∧
      hairpin_counter (pySlice "ACGTACGTACGTACGTACGTACGTACGTAC".toList i
          (i + LshCas13a.spacer_length)) =
        some (hairpin_total (pySlice "ACGTACGTACGTACGTACGTACGTACGTAC".toList i
          (i + LshCas13a.spacer_length)))) ∧
    (pamlessSorted "ACGTACGTACGTACGTACGTACGTACGTAC".toList LshCas13a.spacer_length).Perm
      ((windowPairsT "ACGTACGTACGTACGTACGTACGTACGTAC".toList LshCas13a.spacer_length).enum) ∧
    (pamlessSorted "ACGTACGTACGTACGTACGTACGTACGTAC".toList
        LshCas13a.spacer_length).Pairwise
      (fun a b => a.2.2 < b.2.2 ∨ (a.2.2 = b.2.2 ∧ a.1 ≤ b.1)) ∧
    generate_gRNA_from_seq "ACGTACGTACGTACGTACGTACGTACGTAC".toList "5" 2 =
      some (((pamlessSorted "ACGTACGTACGTACGTACGTACGTACGTAC".toList
          LshCas13a.spacer_length).take 2).map
        (fun t => LshCas13a.scaffold ++ rcT t.2.1)) ∧
    ((pamlessSorted "ACGTACGTACGTACGTACGTACGTACGTAC".toList
        LshCas13a.spacer_length).take 2).length =
      min 2 ("ACGTACGTACGTACGTACGTACGTACGTAC".toList.length + 1 - LshCas13a.spacer_length) ∧
    (∀ i0, i0 < "ACGTACGTACGTACGTACGTACGTACGTAC".toList.length + 1 - LshCas13a.spacer_length →
      (∀ j, j < "ACGTACGTACGTACGTACGTACGTACGTAC".toList.length + 1 - LshCas13a.spacer_length →
        j ≠ i0 →
        ((windowPairsT "ACGTACGTACGTACGTACGTACGTACGTAC".toList
            LshCas13a.spacer_length).getD i0 ([], 0)).2 <
          ((windowPairsT "ACGTACGTACGTACGTACGTACGTACGTAC".toList
            LshCas13a.spacer_length).getD j ([], 0)).2) →
      1 ≤ 2 →
      ∃ rest, generate_gRNA_from_seq "ACGTACGTACGTACGTACGTACGTACGTAC".toList "5" 2 =
        some ((LshCas13a.scaffold ++
          rcT ((windowPairsT "ACGTACGTACGTACGTACGTACGTACGTAC".toList
            LshCas13a.spacer_length).getD i0 ([], 0)).1) :: rest))) :=
  ⟨⟨Or.inl rfl, rfl, by decide⟩,
    c8_structure_ranked_selector "5" LshCas13a (Or.inl rfl) rfl
      "ACGTACGTACGTACGTACGTACGTACGTAC".toList (by decide) 2⟩
